import Mathlib

/-!
GPIO facade of `drivers/RPi/rpi_util.cpp`.

A shallow embedding of the Raspberry Pi pin utilities: the physical-to-GPIO
tables, the `pinMode` / `digitalWrite` / `digitalRead` facade, the sysfs based
`attachInterrupt` / `detachInterrupt` pair with their two 64-slot registries
(`threadIds`, `sysFds`), and the watcher thread body `interruptHandler`.

Machine integers are natural numbers / integers; every external call (register
driver, SPI class, libc, pthreads, logging) is recorded as an `Event` in call
order, and every value the environment returns is an explicit input.
-/

namespace RpiUtil

/-! ## Constants declared in headers -/

/-- Symbolic constants that `rpi_util.cpp` uses but that are declared in headers
(`rpi_util.h`, `bcm2835.h`): the four interrupt modes, the `LOW` level and the
GPIO numbers of header pins 23, 24 and 26. They are parameters of the model. -/
structure Consts where
  CHANGE : Nat
  FALLING : Nat
  RISING : Nat
  NONE : Nat
  LOW : Nat
  RPI_GPIO_P1_23 : Nat
  RPI_GPIO_P1_24 : Nat
  RPI_GPIO_P1_26 : Nat
  deriving DecidableEq, Repr

/-- The labels of the `switch (mode)` in `attachInterrupt` are pairwise distinct
(C++ rejects a `switch` with duplicate case labels). -/
def Consts.distinctModes (c : Consts) : Prop :=
  c.CHANGE ≠ c.FALLING ∧ c.CHANGE ≠ c.RISING ∧ c.CHANGE ≠ c.NONE ∧
  c.FALLING ≠ c.RISING ∧ c.FALLING ≠ c.NONE ∧ c.RISING ≠ c.NONE

instance (c : Consts) : Decidable c.distinctModes := by
  unfold Consts.distinctModes; infer_instance

/-- One concrete choice of the header constants, used to evaluate the model. -/
def sampleConsts : Consts :=
  { CHANGE := 1, FALLING := 2, RISING := 3, NONE := 4, LOW := 0,
    RPI_GPIO_P1_23 := 11, RPI_GPIO_P1_24 := 8, RPI_GPIO_P1_26 := 7 }

/-! ## The pin tables -/

/-- Which of the two `physToGpio` tables the preprocessor selects. -/
inductive Variant where
  /-- Table compiled when `__RPI_BPLUS` is defined. -/
  | bplus
  /-- Table compiled when `__RPI_BPLUS` is not defined. -/
  | other
  deriving DecidableEq, Repr

/-- The initializer list of `physToGpio` under `#ifdef __RPI_BPLUS`, item by item. -/
def physToGpioInitBPlus : List Nat :=
  [ 255,
    255, 255,
      2, 255,
      3, 255,
      4,  14,
    255,  15,
     17,  18,
     27, 255,
     22,  23,
    255,  24,
     10, 255,
      9,  25,
     11,   8,
    255,   7,
      0,   1,
      5, 255,
      6,  12,
     13, 255,
     19,  16,
     26,  20,
    255,  21,
    255, 255,
    255, 255,
    255, 255,
    255, 255,
    255, 255,
     28,  29,
     30,  31,
    255, 255,
    255, 255,
    255, 255,
    255, 255 ]

/-- The initializer list of `physToGpio` in the `#else` branch, item by item. -/
def physToGpioInitOther : List Nat :=
  [ 255,
    255, 255,
      0, 255,
      1, 255,
      4,  14,
    255,  15,
     17,  18,
     21, 255,
     22,  23,
    255,  24,
     10, 255,
      9,  25,
     11,   8,
    255,   7,
    255, 255, 255, 255, 255,
    255, 255, 255, 255, 255, 255, 255, 255, 255, 255, 255, 255, 255, 255, 255, 255,
    255, 255, 255, 255, 255, 255, 255, 255, 255, 255, 255, 255, 255, 255, 255, 255 ]

/-- A `static uint8_t a[size] = { ... }` array: the listed items, and zero in every
element the initializer list does not reach. -/
def staticArray (size : Nat) (init : List Nat) : List Nat :=
  init.take size ++ List.replicate (size - init.length) 0

/-- The array `static uint8_t physToGpio[64]` of the selected variant. -/
def physToGpio : Variant → List Nat
  | .bplus => staticArray 64 physToGpioInitBPlus
  | .other => staticArray 64 physToGpioInitOther

/-- The line `uint8_t gpioPin = (physPin > 63)? 255 : physToGpio[physPin];` that opens
every facade function. -/
def resolve (v : Variant) (physPin : Nat) : Nat :=
  if physPin > 63 then 255 else (physToGpio v).getD physPin 0

/-! ## Effects -/

/-- External calls made by the code, in the order they are made. -/
inductive Event where
  /-- Call `logError(fmt, ...)` or `fprintf(stderr, fmt, ...)`, with its integer arguments. -/
  | logError (fmt : String) (args : List Nat)
  /-- Call `bcm2835_gpio_fsel(gpioPin, mode)`. -/
  | gpio_fsel (gpioPin mode : Nat)
  /-- Call `bcm2835_gpio_write(gpioPin, value)`. -/
  | gpio_write (gpioPin value : Nat)
  /-- Call `bcm2835_gpio_lev(gpioPin)`. -/
  | gpio_lev (gpioPin : Nat)
  /-- Call `SPI.chipSelect(gpioPin)`. -/
  | chipSelect (gpioPin : Nat)
  /-- Call `delayMicroseconds(n)`. -/
  | delayMicroseconds (n : Nat)
  /-- Call `delay(n)`. -/
  | delay (n : Nat)
  /-- Call `fopen(path, "w")`, with whether it returned a stream. -/
  | fopen (path : String) (ok : Bool)
  /-- Call `fprintf(fd, ...)` on the stream opened on `path`, with the text written. -/
  | fprintf (path : String) (text : String)
  /-- Call `fclose(fd)` on the stream opened on `path`. -/
  | fclose (path : String)
  /-- Call `open(path, O_RDWR)` and the descriptor it returned. -/
  | openRdwr (path : String) (fd : Int)
  /-- Call `ioctl(fd, FIONREAD, &count)`. -/
  | ioctlFionread (fd : Int)
  /-- Call `poll(&polls, 1, -1)` on `fd` and what it returned. -/
  | poll (fd : Int) (ret : Int)
  /-- Call `read(fd, &c, n)`. -/
  | read (fd : Int) (n : Nat)
  /-- Call `lseek(fd, offset, SEEK_SET)`. -/
  | lseekSet (fd : Int) (offset : Nat)
  /-- Call `close(fd)`. -/
  | close (fd : Int)
  /-- Call `pthread_cancel(t)`. -/
  | pthread_cancel (t : Nat)
  /-- Call `pthread_create(...)` running `interruptHandler` with `{func, gpioPin}`; `t` is
  the new thread, or `none` when the call failed. -/
  | pthread_create (t : Option Nat) (gpioPin func : Nat)
  /-- The user callback `func()`. -/
  | callFunc (func : Nat)
  /-- Call `piHiPri(pri)`. -/
  | piHiPri (pri : Nat)
  /-- Call `exit(code)`. -/
  | exit (code : Nat)
  deriving DecidableEq, Repr

/-! ## pinMode, digitalWrite, digitalRead -/

/-- The test `gpioPin >= RPI_GPIO_P1_26 && gpioPin <= RPI_GPIO_P1_23`. -/
def inSpiRange (c : Consts) (gpioPin : Nat) : Bool :=
  decide (gpioPin ≥ c.RPI_GPIO_P1_26) && decide (gpioPin ≤ c.RPI_GPIO_P1_23)

/-- Function `rpi_util::pinMode`; `spiInit` is what `SPIClass::is_initialized()` returns. -/
def pinMode (c : Consts) (v : Variant) (spiInit : Bool) (physPin mode : Nat) : List Event :=
  let gpioPin := resolve v physPin
  if gpioPin = 255 then
    [.logError "pinMode: invalid pin: %d\n" [physPin]]
  else if spiInit && inSpiRange c gpioPin then
    []
  else
    [.gpio_fsel gpioPin mode]

/-- Function `rpi_util::digitalWrite`; `spiInit` is what `SPIClass::is_initialized()` returns. -/
def digitalWrite (c : Consts) (v : Variant) (spiInit : Bool) (physPin value : Nat) :
    List Event :=
  let gpioPin := resolve v physPin
  if gpioPin = 255 then
    [.logError "digitalWrite: invalid pin: %d\n" [physPin]]
  else if spiInit && inSpiRange c gpioPin then
    if value = c.LOW ∧ (gpioPin = c.RPI_GPIO_P1_24 ∨ gpioPin = c.RPI_GPIO_P1_26) then
      [.chipSelect gpioPin]
    else
      []
  else
    [.gpio_write gpioPin value, .delayMicroseconds 1]

/-- Function `rpi_util::digitalRead`: the value returned and the calls made; `lev` is what
`bcm2835_gpio_lev` returns for a line. -/
def digitalRead (c : Consts) (v : Variant) (spiInit : Bool) (lev : Nat → Nat)
    (physPin : Nat) : Nat × List Event :=
  let gpioPin := resolve v physPin
  if gpioPin = 255 then
    (0, [.logError "digitalRead: invalid pin: %d\n" [physPin]])
  else if spiInit && inSpiRange c gpioPin then
    (0, [])
  else
    (lev gpioPin, [.gpio_lev gpioPin])

/-! ## The line registry -/

/-- A running watcher thread: its thread id and the `ThreadArgs` it was created with. -/
structure Thread where
  tid : Nat
  gpioPin : Nat
  func : Nat
  deriving DecidableEq, Repr

/-- Process state seen by `attachInterrupt` and `detachInterrupt`.

* `threadIds` is `static pthread_t *threadIds[64]`: `none` is `NULL`, `some t` is a
  pointer to a `pthread_t` whose content is `t`;
* `sysFds` is `static int sysFds[64]`;
* `live` lists the watcher threads that are running;
* `nextTid` is the id the next created thread receives;
* `trace` is every external call made so far, oldest first. -/
structure World where
  threadIds : List (Option Nat)
  sysFds : List Int
  live : List Thread
  nextTid : Nat
  trace : List Event
  deriving DecidableEq, Repr

namespace World

/-- The state at program start: `threadIds = {NULL}`, every `sysFds` slot `-1`. -/
def init : World :=
  { threadIds := List.replicate 64 none
    sysFds := List.replicate 64 (-1)
    live := []
    nextTid := 0
    trace := [] }

/-- Append calls to the trace. -/
def emit (w : World) (es : List Event) : World :=
  { w with trace := w.trace ++ es }

/-- The call `pthread_cancel(t)`: the cancelled thread stops running. -/
def cancel (w : World) (t : Nat) : World :=
  { w with live := w.live.filter (fun th => decide (th.tid ≠ t))
           trace := w.trace ++ [.pthread_cancel t] }

/-- The call `exit(1)`: the process, and every thread in it, ends. -/
def exit1 (w : World) : World :=
  { w with live := [], trace := w.trace ++ [.exit 1] }

/-- Number of running watcher threads bound to line `g`. -/
def liveOn (w : World) (g : Nat) : Nat :=
  (w.live.filter (fun th => decide (th.gpioPin = g))).length

end World

/-! ## sysfs paths -/

/-- The call `snprintf(buf, size, ...)`: at most `size - 1` characters of the formatted
text are stored. -/
def snprintf (size : Nat) (s : String) : String :=
  ⟨s.data.take (size - 1)⟩

/-- Path written by `attachInterrupt` to export a line. -/
def exportPath : String := "/sys/class/gpio/export"

/-- Path written by `detachInterrupt` to unexport a line. -/
def unexportPath : String := "/sys/class/gpio/unexport"

/-- The buffer `fName` after `snprintf(fName, sizeof(fName), "/sys/class/gpio/gpio%d/direction", gpioPin)`. -/
def directionPath (gpioPin : Nat) : String :=
  snprintf 40 ("/sys/class/gpio/gpio" ++ toString gpioPin ++ "/direction")

/-- The buffer `fName` after `snprintf(fName, sizeof(fName), "/sys/class/gpio/gpio%d/edge", gpioPin)`. -/
def edgePath (gpioPin : Nat) : String :=
  snprintf 40 ("/sys/class/gpio/gpio" ++ toString gpioPin ++ "/edge")

/-- The buffer `fName` after `snprintf(fName, sizeof(fName), "/sys/class/gpio/gpio%d/value", gpioPin)`. -/
def valuePath (gpioPin : Nat) : String :=
  snprintf 40 ("/sys/class/gpio/gpio" ++ toString gpioPin ++ "/value")

/-! ## attachInterrupt -/

/-- What the environment answers during one `attachInterrupt` call. -/
structure AttachEnv where
  /-- Content of the `pthread_t` returned by `new pthread_t` (never initialised by the code). -/
  fresh : Nat
  /-- Does `fopen("/sys/class/gpio/export", "w")` return a stream. -/
  exportOk : Bool
  /-- Does `fopen` of the direction file return a stream. -/
  directionOk : Bool
  /-- Does `fopen` of the edge file return a stream. -/
  edgeOk : Bool
  /-- What `open` of the value file returns. -/
  valueFd : Int
  /-- The `count` that `ioctl(FIONREAD)` leaves. -/
  count : Int
  /-- What the `i`-th draining `read` returns. -/
  readRet : Nat → Int
  /-- Does `pthread_create` start the thread. -/
  createOk : Bool

/-- The `switch (mode)` of `attachInterrupt`: the text written to the edge file, or
`none` for the `default:` label. -/
def edgeText (c : Consts) (mode : Nat) : Option String :=
  if mode = c.CHANGE then some "both\n"
  else if mode = c.FALLING then some "falling\n"
  else if mode = c.RISING then some "rising\n"
  else if mode = c.NONE then some "none\n"
  else none

/-- The loop `for (i = 0; i < count; ++i) if (read(fd, &c, 1) == -1) logError(...)`,
from index `i` with `n` iterations left. -/
def drainPending (fd : Int) (readRet : Nat → Int) (i : Nat) : Nat → List Event
  | 0 => []
  | n + 1 =>
    (if readRet i = -1 then
      [.read fd 1, .logError "attachInterrupt: failed to read pin status: %s\n" []]
    else
      [.read fd 1]) ++ drainPending fd readRet (i + 1) n

/-- The block `if (threadIds[gpioPin] == NULL) ... else ...` that opens `attachInterrupt`. -/
def prepareThreadSlot (fresh : Nat) (w : World) (gpioPin : Nat) : World :=
  match w.threadIds.getD gpioPin none with
  | none => { w with threadIds := w.threadIds.set gpioPin (some fresh) }
  | some t => (w.cancel t).emit [.delay 1]

/-- The tail of `attachInterrupt` from `// Clear any initial pending interrupt` on. -/
def drainAndSpawn (env : AttachEnv) (w : World) (gpioPin func : Nat) : World :=
  let fd := w.sysFds.getD gpioPin (-1)
  let w := w.emit (.ioctlFionread fd :: drainPending fd env.readRet 0 env.count.toNat)
  if env.createOk then
    { w with threadIds := w.threadIds.set gpioPin (some w.nextTid)
             live := { tid := w.nextTid, gpioPin := gpioPin, func := func } :: w.live
             nextTid := w.nextTid + 1
             trace := w.trace ++ [.pthread_create (some w.nextTid) gpioPin func] }
  else
    w.emit [.pthread_create none gpioPin func]

/-- The block `if (sysFds[gpioPin] == -1) { ... }` of `attachInterrupt` and everything
after it. `Except.ok` is a normal return, `Except.error` is the process ending in
`exit(1)`; both carry the state reached. -/
def openValueAndSpawn (env : AttachEnv) (w : World) (gpioPin physPin func : Nat) :
    Except World World :=
  if w.sysFds.getD gpioPin (-1) = -1 then
    let w := { w with sysFds := w.sysFds.set gpioPin env.valueFd
                      trace := w.trace ++ [.openRdwr (valuePath gpioPin) env.valueFd] }
    if env.valueFd < 0 then
      .error (w.emit [.logError "Error reading pin %d: %s\n" [physPin]]).exit1
    else
      .ok (drainAndSpawn env w gpioPin func)
  else
    .ok (drainAndSpawn env w gpioPin func)

/-- Function `rpi_util::attachInterrupt`. `Except.ok` is a normal return, `Except.error` is the
process ending in `exit(1)`; both carry the state reached. `func` names the callback. -/
def attachInterrupt (c : Consts) (v : Variant) (env : AttachEnv) (w : World)
    (physPin func mode : Nat) : Except World World :=
  let gpioPin := resolve v physPin
  if gpioPin = 255 then
    .ok (w.emit [.logError "attachInterrupt: invalid pin: %d\n" [physPin]])
  else
    let w := prepareThreadSlot env.fresh w gpioPin
    if env.exportOk = false then
      .error (w.emit [.fopen exportPath false,
        .logError "attachInterrupt: Unable to export pin %d for interrupt: %s\n" [physPin]]).exit1
    else
      let w := w.emit [.fopen exportPath true, .fprintf exportPath (toString gpioPin ++ "\n"),
        .fclose exportPath, .delay 1]
      if env.directionOk = false then
        .error (w.emit [.fopen (directionPath gpioPin) false,
          .logError "attachInterrupt: Unable to open GPIO direction interface for pin %d: %s\n"
            [physPin]]).exit1
      else
        let w := w.emit [.fopen (directionPath gpioPin) true,
          .fprintf (directionPath gpioPin) "in\n", .fclose (directionPath gpioPin)]
        if env.edgeOk = false then
          .error (w.emit [.fopen (edgePath gpioPin) false,
            .logError "attachInterrupt: Unable to open GPIO edge interface for pin %d: %s\n"
              [physPin]]).exit1
        else
          match edgeText c mode with
          | none =>
            .ok (w.emit [.fopen (edgePath gpioPin) true,
              .logError "attachInterrupt: Invalid mode\n" [], .fclose (edgePath gpioPin)])
          | some text =>
            openValueAndSpawn env
              (w.emit [.fopen (edgePath gpioPin) true, .fprintf (edgePath gpioPin) text,
                .fclose (edgePath gpioPin)])
              gpioPin physPin func

/-! ## detachInterrupt -/

/-- The block `if (threadIds[gpioPin] != NULL) { ... }` of `detachInterrupt`. -/
def releaseThreadSlot (w : World) (gpioPin : Nat) : World :=
  match w.threadIds.getD gpioPin none with
  | some t => { w.cancel t with threadIds := w.threadIds.set gpioPin none }
  | none => w

/-- The block `if (sysFds[gpioPin] != -1) { ... }` of `detachInterrupt`. -/
def closeValueFd (w : World) (gpioPin : Nat) : World :=
  if w.sysFds.getD gpioPin (-1) ≠ -1 then
    { w with sysFds := w.sysFds.set gpioPin (-1)
             trace := w.trace ++ [.close (w.sysFds.getD gpioPin (-1))] }
  else w

/-- Function `rpi_util::detachInterrupt`; `unexportOk` tells whether
`fopen("/sys/class/gpio/unexport", "w")` returns a stream. -/
def detachInterrupt (v : Variant) (unexportOk : Bool) (w : World) (physPin : Nat) :
    Except World World :=
  let gpioPin := resolve v physPin
  if gpioPin = 255 then
    .ok (w.emit [.logError "detachInterrupt: invalid pin: %d\n" [physPin]])
  else
    let w := releaseThreadSlot w gpioPin
    let w := closeValueFd w gpioPin
    if unexportOk = false then
      .error (w.emit [.fopen unexportPath false,
        .logError "Unable to unexport pin %d for interrupt\n" [gpioPin]]).exit1
    else
      .ok (w.emit [.fopen unexportPath true, .fprintf unexportPath (toString gpioPin),
        .fclose unexportPath])

/-! ## Sequences of calls -/

/-- One call of the interrupt API together with what the environment answers. -/
inductive Call where
  | attach (env : AttachEnv) (physPin func mode : Nat)
  | detach (unexportOk : Bool) (physPin : Nat)

/-- Perform one call. -/
def step (c : Consts) (v : Variant) (w : World) : Call → Except World World
  | .attach env physPin func mode => attachInterrupt c v env w physPin func mode
  | .detach unexportOk physPin => detachInterrupt v unexportOk w physPin

/-- Perform calls one after the other; nothing runs after `exit(1)`. -/
def run (c : Consts) (v : Variant) : World → List Call → Except World World
  | w, [] => .ok w
  | w, call :: rest =>
    match step c v w call with
    | .ok w' => run c v w' rest
    | .error w' => .error w'

/-- The state carried by an outcome, whether the call returned or the process ended. -/
def finalWorld : Except World World → World
  | .ok w => w
  | .error w => w

/-! ## The watcher thread -/

/-- The `while (1)` loop of `interruptHandler` on descriptor `fd`. Each item of the
list is what one `poll` call returns once it wakes; the result is the calls made and
whether the loop was left through `break` (otherwise the thread is blocked in the
next `poll`). -/
def watchLoop (fd : Int) (func : Nat) : List Int → List Event × Bool
  | [] => ([], false)
  | ret :: rest =>
    if ret < 0 then
      ([.poll fd ret, .logError "Error waiting for interrupt: %s\n" []], true)
    else
      let r := watchLoop fd func rest
      (.poll fd ret :: .read fd 1 :: .lseekSet fd 0 :: .callFunc func :: r.1, r.2)

/-- The thread body `interruptHandler` started with `{func, gpioPin}`: the calls it
makes and whether it has returned. -/
def interruptHandler (sysFds : List Int) (func gpioPin : Nat) (polls : List Int) :
    List Event × Bool :=
  let fd := sysFds.getD gpioPin (-1)
  if fd = -1 then
    ([.piHiPri 55, .logError "Failed to attach interrupt for pin %d\n" [gpioPin]], true)
  else
    let r := watchLoop fd func polls
    if r.2 then (.piHiPri 55 :: (r.1 ++ [.close fd]), true)
    else (.piHiPri 55 :: r.1, false)

/-- An environment in which every file opens and the thread starts. -/
def okEnv : AttachEnv :=
  { fresh := 777, exportOk := true, directionOk := true, edgeOk := true, valueFd := 5,
    count := 0, readRet := fun _ => 1, createOk := true }

/-- The header positions that the specification lists as carrying a GPIO line on the
B+ variant. -/
def bplusHeaderPins : List Nat :=
  [3, 5, 7, 8, 10, 11, 12, 13, 15, 16, 18, 19, 21, 22, 23, 24, 26, 27, 28, 29, 31, 32, 33,
   35, 36, 37, 38, 40, 51, 52, 53, 54]

/-- The header positions that the specification lists as carrying a GPIO line on the
other variant. -/
def otherHeaderPins : List Nat :=
  [3, 5, 7, 8, 10, 11, 12, 13, 15, 16, 18, 19, 21, 22, 23, 24, 26]

/-- The calls that serve one wake-up each of the list, as the specification words it: one
`poll` return, one 1-byte `read`, one `lseek` to offset 0, one callback, in that order. -/
def servedWakes (fd : Int) (func : Nat) : List Int → List Event
  | [] => []
  | ret :: rest =>
    [.poll fd ret, .read fd 1, .lseekSet fd 0, .callFunc func] ++ servedWakes fd func rest

/-- The calls with which `attachInterrupt` starts on a line: nothing when no thread is
recorded, cancellation of the recorded thread and a delay otherwise. -/
def slotEvents (w : World) (gpioPin : Nat) : List Event :=
  match w.threadIds.getD gpioPin none with
  | none => []
  | some t => [.pthread_cancel t, .delay 1]

/-- Is the call a write to a stream or the opening of a descriptor. -/
def Event.writesOrOpens : Event → Bool
  | .fprintf _ _ => true
  | .openRdwr _ _ => true
  | _ => false

/-- The registry invariant: both registries have 64 slots, every running watcher is
bound to a line below 64 whose `threadIds` slot points to that watcher, and no two running
watchers are bound to the same line. -/
def Inv (w : World) : Prop :=
  w.threadIds.length = 64 ∧ w.sysFds.length = 64 ∧
  (∀ th ∈ w.live, th.gpioPin < 64 ∧ w.threadIds.getD th.gpioPin none = some th.tid) ∧
  w.live.Pairwise (fun a b => a.gpioPin ≠ b.gpioPin)

/-! ## Basic facts -/

@[simp] theorem World.emit_threadIds (w : World) (es : List Event) :
    (w.emit es).threadIds = w.threadIds := rfl

@[simp] theorem World.emit_sysFds (w : World) (es : List Event) :
    (w.emit es).sysFds = w.sysFds := rfl

@[simp] theorem World.emit_live (w : World) (es : List Event) :
    (w.emit es).live = w.live := rfl

@[simp] theorem World.emit_nextTid (w : World) (es : List Event) :
    (w.emit es).nextTid = w.nextTid := rfl

@[simp] theorem World.emit_trace (w : World) (es : List Event) :
    (w.emit es).trace = w.trace ++ es := rfl

theorem resolve_of_gt (v : Variant) (physPin : Nat) (h : physPin > 63) :
    resolve v physPin = 255 := by
  simp [resolve, h]

theorem resolve_fin (v : Variant) :
    ∀ p : Fin 64, resolve v p.val = 255 ∨ resolve v p.val < 32 := by
  cases v <;> decide

theorem resolve_range (v : Variant) (physPin : Nat) :
    resolve v physPin = 255 ∨ resolve v physPin < 32 := by
  by_cases h : physPin > 63
  · exact Or.inl (resolve_of_gt v physPin h)
  · exact resolve_fin v ⟨physPin, by omega⟩

theorem resolve_lt_of_ne (v : Variant) (physPin : Nat) (h : resolve v physPin ≠ 255) :
    resolve v physPin < 32 := by
  rcases resolve_range v physPin with h1 | h1
  · exact absurd h1 h
  · exact h1

set_option maxRecDepth 100000 in
theorem snprintf_direction :
    ∀ g : Fin 256, directionPath g.val = "/sys/class/gpio/gpio" ++ toString g.val ++ "/direction" := by
  decide

set_option maxRecDepth 100000 in
theorem snprintf_edge :
    ∀ g : Fin 256, edgePath g.val = "/sys/class/gpio/gpio" ++ toString g.val ++ "/edge" := by
  decide

set_option maxRecDepth 100000 in
theorem snprintf_value :
    ∀ g : Fin 256, valuePath g.val = "/sys/class/gpio/gpio" ++ toString g.val ++ "/value" := by
  decide

/-! ## The pin tables -/

/-- C1 (the code departs from it at one index): under `__RPI_BPLUS` the initializer list of
`physToGpio` has 63 items for 64 elements, so element 63 is zero and physical pin 63
resolves to GPIO line 0 instead of Invalid, although 63 is not a GPIO-carrying header
position. At every other index of the B+ table, and at every index of the other table, the
resolved line is not Invalid exactly on the listed header positions. -/
theorem physToGpio_bplus_pin63 :
    physToGpioInitBPlus.length = 63 ∧ physToGpioInitOther.length = 64 ∧
    resolve .bplus 63 = 0 ∧ 63 ∉ bplusHeaderPins ∧ resolve .other 63 = 255 ∧
    digitalWrite sampleConsts .bplus false 63 1 = [.gpio_write 0 1, .delayMicroseconds 1] ∧
    (∀ p : Fin 63, resolve .bplus p.val ≠ 255 ↔ p.val ∈ bplusHeaderPins) ∧
    (∀ p : Fin 64, resolve .other p.val ≠ 255 ↔ p.val ∈ otherHeaderPins) := by
  refine ⟨rfl, rfl, by decide, by decide, by decide, by decide, by decide, by decide⟩

/-! ## Out-of-range pins -/

/-- C2: for a physical pin of 64 or more, on both variants, resolution yields 255; `pinMode`,
`digitalWrite`, `attachInterrupt` and `detachInterrupt` only report the invalid pin (no
register, chip-select, sysfs or pthread call, registries and watcher threads unchanged) and
`digitalRead` returns 0 without calling `bcm2835_gpio_lev`. -/
theorem out_of_range_pin_is_invalid (c : Consts) (v : Variant) (spiInit : Bool)
    (lev : Nat → Nat) (env : AttachEnv) (unexportOk : Bool) (w : World)
    (physPin func mode value : Nat) (h : physPin ≥ 64) :
    resolve v physPin = 255 ∧
    pinMode c v spiInit physPin mode = [.logError "pinMode: invalid pin: %d\n" [physPin]] ∧
    digitalWrite c v spiInit physPin value =
      [.logError "digitalWrite: invalid pin: %d\n" [physPin]] ∧
    digitalRead c v spiInit lev physPin =
      (0, [.logError "digitalRead: invalid pin: %d\n" [physPin]]) ∧
    attachInterrupt c v env w physPin func mode =
      .ok { w with trace := w.trace ++ [.logError "attachInterrupt: invalid pin: %d\n" [physPin]] } ∧
    detachInterrupt v unexportOk w physPin =
      .ok { w with trace := w.trace ++ [.logError "detachInterrupt: invalid pin: %d\n" [physPin]] } := by
  have hr : resolve v physPin = 255 := resolve_of_gt v physPin (by omega)
  refine ⟨hr, ?_, ?_, ?_, ?_, ?_⟩
  · simp [pinMode, hr]
  · simp [digitalWrite, hr]
  · simp [digitalRead, hr]
  · simp [attachInterrupt, hr, World.emit]
  · simp [detachInterrupt, hr, World.emit]

theorem out_of_range_pin_is_invalid_witness :
    (200 : Nat) ≥ 64 ∧
    resolve .bplus 200 = 255 ∧
    digitalRead sampleConsts .bplus true (fun _ => 1) 200 =
      (0, [.logError "digitalRead: invalid pin: %d\n" [200]]) ∧
    detachInterrupt .bplus true World.init 200 =
      .ok { World.init with
        trace := World.init.trace ++ [.logError "detachInterrupt: invalid pin: %d\n" [200]] } :=
  have h := out_of_range_pin_is_invalid sampleConsts .bplus true (fun _ => 1) okEnv true
    World.init 200 0 0 0 (by decide)
  ⟨by decide, h.1, h.2.2.2.1, h.2.2.2.2.2⟩

/-! ## digitalWrite -/

/-- C6: with `g` the resolved line, `digitalWrite` (i) only reports the invalid pin when
`g` is 255; (ii) when the SPI bus is initialised and `RPI_GPIO_P1_26 ≤ g ≤ RPI_GPIO_P1_23`
makes no register write: it calls `SPI.chipSelect(g)` once and nothing else if `value` is
`LOW` and `g` is `RPI_GPIO_P1_24` or `RPI_GPIO_P1_26`, and makes no call at all otherwise;
(iii) in every other case calls `bcm2835_gpio_write(g, value)` once and then
`delayMicroseconds(1)`. -/
theorem digitalWrite_cases (c : Consts) (v : Variant) (spiInit : Bool)
    (physPin value g : Nat) (hg : g = resolve v physPin) :
    (g = 255 →
      digitalWrite c v spiInit physPin value =
        [.logError "digitalWrite: invalid pin: %d\n" [physPin]]) ∧
    (g ≠ 255 → spiInit = true → c.RPI_GPIO_P1_26 ≤ g → g ≤ c.RPI_GPIO_P1_23 →
      (∀ e ∈ digitalWrite c v spiInit physPin value, ∀ g' value', e ≠ .gpio_write g' value') ∧
      (value = c.LOW ∧ (g = c.RPI_GPIO_P1_24 ∨ g = c.RPI_GPIO_P1_26) →
        digitalWrite c v spiInit physPin value = [.chipSelect g]) ∧
      (¬ (value = c.LOW ∧ (g = c.RPI_GPIO_P1_24 ∨ g = c.RPI_GPIO_P1_26)) →
        digitalWrite c v spiInit physPin value = [])) ∧
    (g ≠ 255 → ¬ (spiInit = true ∧ c.RPI_GPIO_P1_26 ≤ g ∧ g ≤ c.RPI_GPIO_P1_23) →
      digitalWrite c v spiInit physPin value = [.gpio_write g value, .delayMicroseconds 1]) := by
  subst hg
  refine ⟨?_, ?_, ?_⟩
  · intro h
    simp [digitalWrite, h]
  · intro h hs h1 h2
    have hr : inSpiRange c (resolve v physPin) = true := by simp [inSpiRange, h1, h2]
    by_cases hv : value = c.LOW ∧
        (resolve v physPin = c.RPI_GPIO_P1_24 ∨ resolve v physPin = c.RPI_GPIO_P1_26)
    · simp [digitalWrite, h, hs, hr, hv]
    · simp [digitalWrite, h, hs, hr, hv]
  · intro h hn
    have hr : (spiInit && inSpiRange c (resolve v physPin)) = false := by
      cases spiInit with
      | false => rfl
      | true =>
        have : ¬ (c.RPI_GPIO_P1_26 ≤ resolve v physPin ∧ resolve v physPin ≤ c.RPI_GPIO_P1_23) :=
          fun hh => hn ⟨rfl, hh⟩
        simp only [inSpiRange, Bool.true_and, ge_iff_le]
        by_cases h1 : c.RPI_GPIO_P1_26 ≤ resolve v physPin
        · have h2 : ¬ resolve v physPin ≤ c.RPI_GPIO_P1_23 := fun h2 => this ⟨h1, h2⟩
          simp [h1, h2]
        · simp [h1]
    simp [digitalWrite, h, hr]

theorem digitalWrite_cases_witness :
    digitalWrite sampleConsts .other true 1 1 =
      [.logError "digitalWrite: invalid pin: %d\n" [1]] ∧
    digitalWrite sampleConsts .other true 24 0 = [.chipSelect 8] ∧
    digitalWrite sampleConsts .other true 24 1 = [] ∧
    digitalWrite sampleConsts .other true 19 0 = [] ∧
    digitalWrite sampleConsts .other false 24 0 = [.gpio_write 8 0, .delayMicroseconds 1] ∧
    digitalWrite sampleConsts .other true 7 1 = [.gpio_write 4 1, .delayMicroseconds 1] :=
  ⟨(digitalWrite_cases sampleConsts .other true 1 1 255 (by decide)).1 rfl,
   ((digitalWrite_cases sampleConsts .other true 24 0 8 (by decide)).2.1
      (by decide) rfl (by decide) (by decide)).2.1 (by decide),
   ((digitalWrite_cases sampleConsts .other true 24 1 8 (by decide)).2.1
      (by decide) rfl (by decide) (by decide)).2.2 (by decide),
   ((digitalWrite_cases sampleConsts .other true 19 0 10 (by decide)).2.1
      (by decide) rfl (by decide) (by decide)).2.2 (by decide),
   (digitalWrite_cases sampleConsts .other false 24 0 8 (by decide)).2.2
      (by decide) (by decide),
   (digitalWrite_cases sampleConsts .other true 7 1 4 (by decide)).2.2
      (by decide) (by decide)⟩

/-! ## The watcher loop -/

theorem watchLoop_served (fd : Int) (func : Nat) (pre rest : List Int)
    (hpre : ∀ x ∈ pre, 0 ≤ x) :
    watchLoop fd func (pre ++ rest) =
      (servedWakes fd func pre ++ (watchLoop fd func rest).1, (watchLoop fd func rest).2) := by
  induction pre with
  | nil => simp [servedWakes]
  | cons x xs ih =>
    have hx : ¬ x < 0 := by
      have := hpre x (List.mem_cons_self _ _)
      omega
    have ih' := ih (fun y hy => hpre y (List.mem_cons_of_mem _ hy))
    simp [watchLoop, servedWakes, hx, ih']

/-- C10: in the watcher started on a line whose descriptor `fd` is open, after any number
of served wake-ups, a `poll` that returns `ret ≥ 0` is followed by one `read(fd, &c, 1)`,
then `lseek(fd, 0, SEEK_SET)`, then one call of the callback, and the loop goes on; a
`poll` that returns `ret < 0` is followed by the error report only, the loop ends, `fd`
is closed and the thread returns without calling the callback for that wake. -/
theorem interruptHandler_wake (sysFds : List Int) (func gpioPin : Nat) (fd ret : Int)
    (pre rest : List Int) (hfd : sysFds.getD gpioPin (-1) = fd) (hopen : fd ≠ -1)
    (hpre : ∀ x ∈ pre, 0 ≤ x) :
    (0 ≤ ret →
      watchLoop fd func (pre ++ ret :: rest) =
        (servedWakes fd func pre ++
          [.poll fd ret, .read fd 1, .lseekSet fd 0, .callFunc func] ++
          (watchLoop fd func rest).1, (watchLoop fd func rest).2) ∧
      ∃ tail, (interruptHandler sysFds func gpioPin (pre ++ ret :: rest)).1 =
        .piHiPri 55 :: (servedWakes fd func pre ++
          [.poll fd ret, .read fd 1, .lseekSet fd 0, .callFunc func] ++ tail)) ∧
    (ret < 0 →
      interruptHandler sysFds func gpioPin (pre ++ ret :: rest) =
        (.piHiPri 55 :: (servedWakes fd func pre ++
          [.poll fd ret, .logError "Error waiting for interrupt: %s\n" [], .close fd]),
         true)) := by
  subst hfd
  have hs := watchLoop_served (sysFds.getD gpioPin (-1)) func pre (ret :: rest) hpre
  refine ⟨?_, ?_⟩
  · intro hret
    have hx : ¬ ret < 0 := by omega
    have hw : watchLoop (sysFds.getD gpioPin (-1)) func (pre ++ ret :: rest) =
        (servedWakes (sysFds.getD gpioPin (-1)) func pre ++
          [.poll (sysFds.getD gpioPin (-1)) ret, .read (sysFds.getD gpioPin (-1)) 1,
           .lseekSet (sysFds.getD gpioPin (-1)) 0, .callFunc func] ++
          (watchLoop (sysFds.getD gpioPin (-1)) func rest).1,
         (watchLoop (sysFds.getD gpioPin (-1)) func rest).2) := by
      rw [hs]
      simp [watchLoop, hx]
    refine ⟨hw, ?_⟩
    by_cases hb : (watchLoop (sysFds.getD gpioPin (-1)) func rest).2 = true
    · refine ⟨(watchLoop (sysFds.getD gpioPin (-1)) func rest).1 ++
        [.close (sysFds.getD gpioPin (-1))], ?_⟩
      rw [interruptHandler]
      simp only [if_neg hopen, hw, hb, if_true]
      simp
    · refine ⟨(watchLoop (sysFds.getD gpioPin (-1)) func rest).1, ?_⟩
      rw [interruptHandler]
      simp only [if_neg hopen, hw, hb]
      simp
  · intro hret
    rw [interruptHandler]
    simp only [if_neg hopen, hs]
    simp [watchLoop, hret]

theorem interruptHandler_wake_witness :
    (∃ tail, (interruptHandler [-1, 5] 9 1 [1, 1, 0, -1, 1]).1 =
      .piHiPri 55 :: (servedWakes 5 9 [1, 1] ++
        [.poll 5 0, .read 5 1, .lseekSet 5 0, .callFunc 9] ++ tail)) ∧
    interruptHandler [-1, 5] 9 1 [1, 1, -1, 1] =
      (.piHiPri 55 :: (servedWakes 5 9 [1, 1] ++
        [.poll 5 (-1), .logError "Error waiting for interrupt: %s\n" [], .close 5]), true) :=
  ⟨((interruptHandler_wake [-1, 5] 9 1 5 0 [1, 1] [-1, 1] (by decide) (by decide)
      (by decide)).1 (by decide)).2,
   (interruptHandler_wake [-1, 5] 9 1 5 (-1) [1, 1] [1] (by decide) (by decide)
      (by decide)).2 (by decide)⟩

/-! ## attachInterrupt: the sysfs protocol -/

theorem slotEvents_cases (w : World) (g : Nat) :
    slotEvents w g = [] ∨ ∃ t, slotEvents w g = [.pthread_cancel t, .delay 1] := by
  unfold slotEvents
  split
  · exact Or.inl rfl
  · exact Or.inr ⟨_, rfl⟩

theorem fprintf_not_mem_slotEvents (w : World) (g : Nat) (p t : String) :
    Event.fprintf p t ∉ slotEvents w g := by
  rcases slotEvents_cases w g with h | ⟨t0, h⟩ <;> simp [h]

theorem prepareThreadSlot_trace (fresh : Nat) (w : World) (g : Nat) :
    (prepareThreadSlot fresh w g).trace = w.trace ++ slotEvents w g := by
  unfold prepareThreadSlot slotEvents
  split <;> simp [World.cancel, World.emit]

theorem prepareThreadSlot_sysFds (fresh : Nat) (w : World) (g : Nat) :
    (prepareThreadSlot fresh w g).sysFds = w.sysFds := by
  unfold prepareThreadSlot
  split <;> simp [World.cancel, World.emit]

theorem prepareThreadSlot_nextTid (fresh : Nat) (w : World) (g : Nat) :
    (prepareThreadSlot fresh w g).nextTid = w.nextTid := by
  unfold prepareThreadSlot
  split <;> simp [World.cancel, World.emit]

theorem fprintf_not_mem_drainPending (fd : Int) (readRet : Nat → Int) (n i : Nat)
    (p t : String) : Event.fprintf p t ∉ drainPending fd readRet i n := by
  induction n generalizing i with
  | zero => simp [drainPending]
  | succ k ih =>
    simp only [drainPending, List.mem_append, not_or]
    refine ⟨?_, ih (i + 1)⟩
    split <;> simp

theorem drainAndSpawn_trace (env : AttachEnv) (w : World) (g func : Nat) :
    (drainAndSpawn env w g func).trace = w.trace ++
      (.ioctlFionread (w.sysFds.getD g (-1)) ::
        drainPending (w.sysFds.getD g (-1)) env.readRet 0 env.count.toNat ++
        [.pthread_create (if env.createOk = true then some w.nextTid else none) g func]) := by
  unfold drainAndSpawn
  by_cases hc : env.createOk = true <;> simp [hc, World.emit]

theorem openValueAndSpawn_ok (env : AttachEnv) (w : World) (g physPin func : Nat)
    (hval : w.sysFds.getD g (-1) ≠ -1 ∨ 0 ≤ env.valueFd) :
    ∃ w' mid, openValueAndSpawn env w g physPin func = .ok w' ∧
      w'.trace = w.trace ++ mid ++
        [.pthread_create (if env.createOk = true then some w.nextTid else none) g func] ∧
      ∀ p t, Event.fprintf p t ∉ mid := by
  by_cases hfd : w.sysFds.getD g (-1) = -1
  · have hv : ¬ env.valueFd < 0 := by
      rcases hval with h | h
      · exact absurd hfd h
      · omega
    refine ⟨drainAndSpawn env
        { w with sysFds := w.sysFds.set g env.valueFd
                 trace := w.trace ++ [.openRdwr (valuePath g) env.valueFd] } g func,
      .openRdwr (valuePath g) env.valueFd ::
        .ioctlFionread ((w.sysFds.set g env.valueFd).getD g (-1)) ::
        drainPending ((w.sysFds.set g env.valueFd).getD g (-1)) env.readRet 0 env.count.toNat,
      ?_, ?_, ?_⟩
    · simp only [openValueAndSpawn, if_pos hfd, if_neg hv]
    · rw [drainAndSpawn_trace]
      simp
    · intro p t
      simp [fprintf_not_mem_drainPending]
  · refine ⟨drainAndSpawn env w g func,
      .ioctlFionread (w.sysFds.getD g (-1)) ::
        drainPending (w.sysFds.getD g (-1)) env.readRet 0 env.count.toNat, ?_, ?_, ?_⟩
    · simp only [openValueAndSpawn, if_neg hfd]
    · rw [drainAndSpawn_trace]
      simp
    · intro p t
      simp [fprintf_not_mem_drainPending]

theorem paths_of_lt (g : Nat) (h : g < 256) :
    directionPath g = "/sys/class/gpio/gpio" ++ toString g ++ "/direction" ∧
    edgePath g = "/sys/class/gpio/gpio" ++ toString g ++ "/edge" ∧
    valuePath g = "/sys/class/gpio/gpio" ++ toString g ++ "/value" :=
  ⟨snprintf_direction ⟨g, h⟩, snprintf_edge ⟨g, h⟩, snprintf_value ⟨g, h⟩⟩

theorem edgeText_of_mem (c : Consts) (hd : c.distinctModes) (mode : Nat) (text : String)
    (hmode : (mode, text) ∈ [(c.CHANGE, "both\n"), (c.FALLING, "falling\n"),
      (c.RISING, "rising\n"), (c.NONE, "none\n")]) :
    edgeText c mode = some text := by
  obtain ⟨d1, d2, d3, d4, d5, d6⟩ := hd
  simp only [List.mem_cons, Prod.mk.injEq, List.mem_singleton, List.not_mem_nil,
    or_false] at hmode
  rcases hmode with ⟨h1, h2⟩ | ⟨h1, h2⟩ | ⟨h1, h2⟩ | ⟨h1, h2⟩
  · simp [edgeText, h1, h2]
  · simp [edgeText, h1, h2, Ne.symm d1]
  · simp [edgeText, h1, h2, Ne.symm d2, Ne.symm d4]
  · simp [edgeText, h1, h2, Ne.symm d3, Ne.symm d5, Ne.symm d6]

theorem attachInterrupt_configured (c : Consts) (v : Variant) (env : AttachEnv) (w : World)
    (physPin func mode : Nat) (text : String) (hvalid : resolve v physPin ≠ 255)
    (hexp : env.exportOk = true) (hdir : env.directionOk = true) (hedge : env.edgeOk = true)
    (htext : edgeText c mode = some text) :
    attachInterrupt c v env w physPin func mode =
      openValueAndSpawn env
        ((((prepareThreadSlot env.fresh w (resolve v physPin)).emit
            [.fopen exportPath true, .fprintf exportPath (toString (resolve v physPin) ++ "\n"),
             .fclose exportPath, .delay 1]).emit
            [.fopen (directionPath (resolve v physPin)) true,
             .fprintf (directionPath (resolve v physPin)) "in\n",
             .fclose (directionPath (resolve v physPin))]).emit
            [.fopen (edgePath (resolve v physPin)) true,
             .fprintf (edgePath (resolve v physPin)) text,
             .fclose (edgePath (resolve v physPin))])
        (resolve v physPin) physPin func := by
  simp only [attachInterrupt, if_neg hvalid, hexp, hdir, hedge, htext]
  rfl

/-- C7: for a valid physical pin with resolved line `g` and each of the four supported
modes, when the export, direction, edge and value files open, `attachInterrupt` returns
after having written, in this order and after at most a cancellation of the recorded
thread, the decimal `g` and a newline to `/sys/class/gpio/export`, `"in\n"` to the
direction file of line `g`, and to its edge file exactly `"both\n"` for `CHANGE`,
`"falling\n"` for `FALLING`, `"rising\n"` for `RISING` and `"none\n"` for `NONE`; it
writes nothing else to any stream. -/
theorem attachInterrupt_sysfs_protocol (c : Consts) (v : Variant) (env : AttachEnv)
    (w : World) (physPin func mode g : Nat) (text : String)
    (hg : g = resolve v physPin) (hvalid : g ≠ 255) (hd : c.distinctModes)
    (hmode : (mode, text) ∈ [(c.CHANGE, "both\n"), (c.FALLING, "falling\n"),
      (c.RISING, "rising\n"), (c.NONE, "none\n")])
    (hexp : env.exportOk = true) (hdir : env.directionOk = true)
    (hedge : env.edgeOk = true)
    (hval : w.sysFds.getD g (-1) ≠ -1 ∨ 0 ≤ env.valueFd) :
    ∃ w' post, attachInterrupt c v env w physPin func mode = .ok w' ∧
      w'.trace = w.trace ++ slotEvents w g ++
        [.fopen "/sys/class/gpio/export" true,
         .fprintf "/sys/class/gpio/export" (toString g ++ "\n"),
         .fclose "/sys/class/gpio/export",
         .delay 1,
         .fopen ("/sys/class/gpio/gpio" ++ toString g ++ "/direction") true,
         .fprintf ("/sys/class/gpio/gpio" ++ toString g ++ "/direction") "in\n",
         .fclose ("/sys/class/gpio/gpio" ++ toString g ++ "/direction"),
         .fopen ("/sys/class/gpio/gpio" ++ toString g ++ "/edge") true,
         .fprintf ("/sys/class/gpio/gpio" ++ toString g ++ "/edge") text,
         .fclose ("/sys/class/gpio/gpio" ++ toString g ++ "/edge")] ++ post ∧
      ∀ p t, Event.fprintf p t ∉ slotEvents w g ++ post := by
  subst hg
  have hlt : resolve v physPin < 256 := by
    have := resolve_lt_of_ne v physPin hvalid
    omega
  obtain ⟨hp1, hp2, -⟩ := paths_of_lt _ hlt
  have htext := edgeText_of_mem c hd mode text hmode
  have key := attachInterrupt_configured c v env w physPin func mode text hvalid hexp hdir
    hedge htext
  obtain ⟨w', mid, hok, htr, hno⟩ := openValueAndSpawn_ok env _ (resolve v physPin) physPin func
    (show (((((prepareThreadSlot env.fresh w (resolve v physPin)).emit _).emit _).emit _).sysFds.getD
      (resolve v physPin) (-1) ≠ -1 ∨ 0 ≤ env.valueFd) by
        simpa [prepareThreadSlot_sysFds] using hval)
  refine ⟨w', mid ++ [.pthread_create
    (if env.createOk = true then some (prepareThreadSlot env.fresh w (resolve v physPin)).nextTid
      else none) (resolve v physPin) func], ?_, ?_, ?_⟩
  · rw [key]
    exact hok
  · rw [htr]
    simp only [World.emit_trace, World.emit_nextTid, prepareThreadSlot_trace, hp1, hp2,
      exportPath, List.append_assoc, List.cons_append, List.nil_append]
  · intro p t
    have h1 := fprintf_not_mem_slotEvents w (resolve v physPin) p t
    have h2 := hno p t
    simp [h1, h2]

theorem attachInterrupt_sysfs_protocol_witness :
    ∃ w' post, attachInterrupt sampleConsts .other okEnv World.init 11 0 3 = .ok w' ∧
      w'.trace = World.init.trace ++ slotEvents World.init 17 ++
        [.fopen "/sys/class/gpio/export" true,
         .fprintf "/sys/class/gpio/export" (toString 17 ++ "\n"),
         .fclose "/sys/class/gpio/export",
         .delay 1,
         .fopen ("/sys/class/gpio/gpio" ++ toString 17 ++ "/direction") true,
         .fprintf ("/sys/class/gpio/gpio" ++ toString 17 ++ "/direction") "in\n",
         .fclose ("/sys/class/gpio/gpio" ++ toString 17 ++ "/direction"),
         .fopen ("/sys/class/gpio/gpio" ++ toString 17 ++ "/edge") true,
         .fprintf ("/sys/class/gpio/gpio" ++ toString 17 ++ "/edge") "rising\n",
         .fclose ("/sys/class/gpio/gpio" ++ toString 17 ++ "/edge")] ++ post ∧
      ∀ p t, Event.fprintf p t ∉ slotEvents World.init 17 ++ post :=
  attachInterrupt_sysfs_protocol sampleConsts .other okEnv World.init 11 0 3 17 "rising\n"
    (by decide) (by decide) (by decide) (by decide) rfl rfl rfl (Or.inr (by decide))

/-! ## attachInterrupt: an unrecognised mode -/

theorem attachInterrupt_rejected (c : Consts) (v : Variant) (env : AttachEnv) (w : World)
    (physPin func mode : Nat) (hvalid : resolve v physPin ≠ 255)
    (hexp : env.exportOk = true) (hdir : env.directionOk = true) (hedge : env.edgeOk = true)
    (htext : edgeText c mode = none) :
    attachInterrupt c v env w physPin func mode =
      .ok ((((prepareThreadSlot env.fresh w (resolve v physPin)).emit
            [.fopen exportPath true, .fprintf exportPath (toString (resolve v physPin) ++ "\n"),
             .fclose exportPath, .delay 1]).emit
            [.fopen (directionPath (resolve v physPin)) true,
             .fprintf (directionPath (resolve v physPin)) "in\n",
             .fclose (directionPath (resolve v physPin))]).emit
            [.fopen (edgePath (resolve v physPin)) true,
             .logError "attachInterrupt: Invalid mode\n" [],
             .fclose (edgePath (resolve v physPin))]) := by
  simp only [attachInterrupt, if_neg hvalid, hexp, hdir, hedge, htext]
  rfl

theorem edgeText_eq_none (c : Consts) (mode : Nat)
    (hmode : mode ∉ [c.CHANGE, c.FALLING, c.RISING, c.NONE]) : edgeText c mode = none := by
  simp only [List.mem_cons, List.mem_singleton, List.not_mem_nil, or_false, not_or] at hmode
  obtain ⟨h1, h2, h3, h4⟩ := hmode
  simp [edgeText, h1, h2, h3, h4]

/-- C3 (as the code behaves): for a valid physical pin with resolved line `g` and a mode that
is none of `CHANGE`, `FALLING`, `RISING`, `NONE`, when the export, direction and edge files
open, `attachInterrupt` first writes the decimal `g` and a newline to the export file and
`"in\n"` to the direction file and opens the edge file, and only then rejects the mode: it
writes nothing to the edge file, closes it and returns without opening the value file,
without changing `sysFds` and without creating a thread. -/
theorem attachInterrupt_unknown_mode (c : Consts) (v : Variant) (env : AttachEnv)
    (w : World) (physPin func mode g : Nat)
    (hg : g = resolve v physPin) (hvalid : g ≠ 255)
    (hmode : mode ∉ [c.CHANGE, c.FALLING, c.RISING, c.NONE])
    (hexp : env.exportOk = true) (hdir : env.directionOk = true)
    (hedge : env.edgeOk = true) :
    ∃ w', attachInterrupt c v env w physPin func mode = .ok w' ∧
      w'.trace = w.trace ++ slotEvents w g ++
        [.fopen "/sys/class/gpio/export" true,
         .fprintf "/sys/class/gpio/export" (toString g ++ "\n"),
         .fclose "/sys/class/gpio/export",
         .delay 1,
         .fopen ("/sys/class/gpio/gpio" ++ toString g ++ "/direction") true,
         .fprintf ("/sys/class/gpio/gpio" ++ toString g ++ "/direction") "in\n",
         .fclose ("/sys/class/gpio/gpio" ++ toString g ++ "/direction"),
         .fopen ("/sys/class/gpio/gpio" ++ toString g ++ "/edge") true,
         .logError "attachInterrupt: Invalid mode\n" [],
         .fclose ("/sys/class/gpio/gpio" ++ toString g ++ "/edge")] ∧
      w'.sysFds = w.sysFds ∧ w'.nextTid = w.nextTid ∧ ∀ th ∈ w'.live, th ∈ w.live := by
  subst hg
  have hlt : resolve v physPin < 256 := by
    have := resolve_lt_of_ne v physPin hvalid
    omega
  obtain ⟨hp1, hp2, -⟩ := paths_of_lt _ hlt
  have htext := edgeText_eq_none c mode hmode
  refine ⟨_, attachInterrupt_rejected c v env w physPin func mode hvalid hexp hdir hedge htext,
    ?_, ?_, ?_, ?_⟩
  · simp only [World.emit_trace, prepareThreadSlot_trace, hp1, hp2, exportPath,
      List.append_assoc, List.cons_append, List.nil_append]
  · simp only [World.emit_sysFds, prepareThreadSlot_sysFds]
  · simp only [World.emit_nextTid, prepareThreadSlot_nextTid]
  · intro th hth
    simp only [World.emit_live] at hth
    unfold prepareThreadSlot at hth
    split at hth
    · exact hth
    · simp only [World.emit_live, World.cancel] at hth
      exact (List.mem_filter.mp hth).1

theorem attachInterrupt_unknown_mode_witness :
    ∃ w', attachInterrupt sampleConsts .other okEnv World.init 11 0 99 = .ok w' ∧
      w'.trace = World.init.trace ++ slotEvents World.init 17 ++
        [.fopen "/sys/class/gpio/export" true,
         .fprintf "/sys/class/gpio/export" (toString 17 ++ "\n"),
         .fclose "/sys/class/gpio/export",
         .delay 1,
         .fopen ("/sys/class/gpio/gpio" ++ toString 17 ++ "/direction") true,
         .fprintf ("/sys/class/gpio/gpio" ++ toString 17 ++ "/direction") "in\n",
         .fclose ("/sys/class/gpio/gpio" ++ toString 17 ++ "/direction"),
         .fopen ("/sys/class/gpio/gpio" ++ toString 17 ++ "/edge") true,
         .logError "attachInterrupt: Invalid mode\n" [],
         .fclose ("/sys/class/gpio/gpio" ++ toString 17 ++ "/edge")] ∧
      w'.sysFds = World.init.sysFds ∧ w'.nextTid = World.init.nextTid ∧
      ∀ th ∈ w'.live, th ∈ World.init.live :=
  attachInterrupt_unknown_mode sampleConsts .other okEnv World.init 11 0 99 17
    (by decide) (by decide) (by decide) rfl rfl rfl

/-- C3 fails as stated: on the non-B+ table, physical pin 3 (line 0) and mode 99, with every
file opening, `attachInterrupt` has written `"0\n"` to the export file and `"in\n"` to the
direction file of line 0 by the time it rejects the mode. -/
theorem attachInterrupt_unknown_mode_writes_sysfs :
    resolve .other 3 = 0 ∧
    99 ∉ [sampleConsts.CHANGE, sampleConsts.FALLING, sampleConsts.RISING, sampleConsts.NONE] ∧
    (finalWorld (attachInterrupt sampleConsts .other okEnv World.init 3 0 99)).trace =
      [.fopen "/sys/class/gpio/export" true,
       .fprintf "/sys/class/gpio/export" "0\n",
       .fclose "/sys/class/gpio/export",
       .delay 1,
       .fopen "/sys/class/gpio/gpio0/direction" true,
       .fprintf "/sys/class/gpio/gpio0/direction" "in\n",
       .fclose "/sys/class/gpio/gpio0/direction",
       .fopen "/sys/class/gpio/gpio0/edge" true,
       .logError "attachInterrupt: Invalid mode\n" [],
       .fclose "/sys/class/gpio/gpio0/edge"] ∧
    ((finalWorld (attachInterrupt sampleConsts .other okEnv World.init 3 0 99)).trace.any
      Event.writesOrOpens) = true := by
  refine ⟨by decide, by decide, by decide, by decide⟩

/-- C4 (the code departs from it): on the non-B+ table, with an empty registry,
`attachInterrupt` on physical pin 3 (line 0) with mode 99 creates no thread, yet it leaves
`threadIds[0]` pointing to the `pthread_t` it allocated and never initialised, and the
`detachInterrupt` on pin 3 that follows calls `pthread_cancel` on that content. -/
theorem attachInterrupt_unknown_mode_keeps_thread_record :
    resolve .other 3 = 0 ∧ World.init.threadIds.getD 0 none = none ∧
    edgeText sampleConsts 99 = none ∧
    (finalWorld (attachInterrupt sampleConsts .other okEnv World.init 3 0 99)).live = [] ∧
    (finalWorld (attachInterrupt sampleConsts .other okEnv World.init 3 0 99)).threadIds.getD
      0 none = some okEnv.fresh ∧
    (finalWorld (run sampleConsts .other World.init
      [.attach okEnv 3 0 99, .detach true 3])).trace =
      (finalWorld (attachInterrupt sampleConsts .other okEnv World.init 3 0 99)).trace ++
      [.pthread_cancel okEnv.fresh,
       .fopen "/sys/class/gpio/unexport" true,
       .fprintf "/sys/class/gpio/unexport" "0",
       .fclose "/sys/class/gpio/unexport"] := by
  refine ⟨by decide, by decide, by decide, by decide, by decide, by decide⟩

/-! ## Registry lemmas -/

theorem getD_set_ne {α : Type} (l : List α) (i j : Nat) (a d : α) (h : i ≠ j) :
    (l.set i a).getD j d = l.getD j d := by
  simp [List.getElem?_set_ne h]

theorem getD_set_self {α : Type} (l : List α) (i : Nat) (a d : α) (h : i < l.length) :
    (l.set i a).getD i d = a := by
  simp [h]

theorem getD_set_default {α : Type} (l : List α) (i : Nat) (d : α) :
    (l.set i d).getD i d = d := by
  by_cases h : i < l.length
  · simp [h]
  · have h2 : (l.set i d).length ≤ i := by simpa using h
    simp [List.getElem?_eq_none h2]

theorem Inv_init : Inv World.init := by
  refine ⟨?_, ?_, ?_, ?_⟩ <;> simp [World.init]

theorem Inv.mono {w w' : World} (h : Inv w) (ht : w'.threadIds = w.threadIds)
    (hs : w'.sysFds.length = w.sysFds.length) (hl : w'.live.Sublist w.live) : Inv w' := by
  obtain ⟨h1, h2, h3, h4⟩ := h
  refine ⟨by rw [ht]; exact h1, by rw [hs]; exact h2, ?_, h4.sublist hl⟩
  intro th hth
  rw [ht]
  exact h3 th (hl.subset hth)

theorem Inv_emit {w : World} (h : Inv w) (es : List Event) : Inv (w.emit es) :=
  h.mono rfl rfl (List.Sublist.refl _)

theorem Inv_exit1 {w : World} (h : Inv w) : Inv w.exit1 :=
  h.mono rfl rfl (List.nil_sublist _)

theorem Inv_prepareThreadSlot (fresh : Nat) (w : World) (g : Nat) (h : Inv w) :
    Inv (prepareThreadSlot fresh w g) ∧
    ∀ th ∈ (prepareThreadSlot fresh w g).live, th.gpioPin ≠ g := by
  obtain ⟨h1, h2, h3, h4⟩ := h
  unfold prepareThreadSlot
  cases hq : w.threadIds.getD g none with
  | none =>
    have hne : ∀ th ∈ w.live, th.gpioPin ≠ g := by
      intro th hth heq
      have := (h3 th hth).2
      rw [heq, hq] at this
      exact absurd this (by simp)
    refine ⟨⟨by simpa using h1, h2, ?_, h4⟩, hne⟩
    intro th hth
    refine ⟨(h3 th hth).1, ?_⟩
    show (w.threadIds.set g (some fresh)).getD th.gpioPin none = some th.tid
    rw [getD_set_ne _ _ _ _ _ (Ne.symm (hne th hth))]
    exact (h3 th hth).2
  | some t =>
    refine ⟨Inv.mono ⟨h1, h2, h3, h4⟩ rfl rfl (List.filter_sublist _), ?_⟩
    intro th hth heq
    have hth' : th ∈ w.live ∧ th.tid ≠ t := by
      simpa [World.emit, World.cancel, List.mem_filter] using hth
    have := (h3 th hth'.1).2
    rw [heq, hq] at this
    exact hth'.2 (Option.some.inj this).symm

theorem Inv_drainAndSpawn (env : AttachEnv) (w : World) (g func : Nat) (h : Inv w)
    (hg : g < 64) (hno : ∀ th ∈ w.live, th.gpioPin ≠ g) :
    Inv (drainAndSpawn env w g func) := by
  obtain ⟨h1, h2, h3, h4⟩ := h
  unfold drainAndSpawn
  by_cases hc : env.createOk = true
  · simp only [hc, if_true]
    refine ⟨by simpa using h1, by simpa using h2, ?_, ?_⟩
    · intro th hth
      simp only [World.emit_live, World.emit_threadIds, World.emit_nextTid,
        List.mem_cons] at hth ⊢
      rcases hth with rfl | hth
      · exact ⟨hg, getD_set_self _ _ _ _ (by omega)⟩
      · refine ⟨(h3 th hth).1, ?_⟩
        rw [getD_set_ne _ _ _ _ _ (Ne.symm (hno th hth))]
        exact (h3 th hth).2
    · simp only [World.emit_live, List.pairwise_cons]
      exact ⟨fun a ha => Ne.symm (hno a ha), h4⟩
  · simp only [hc]
    exact Inv_emit (Inv_emit ⟨h1, h2, h3, h4⟩ _) _

theorem liveOn_drainAndSpawn (env : AttachEnv) (w : World) (g func : Nat)
    (hc : env.createOk = true) (hno : ∀ th ∈ w.live, th.gpioPin ≠ g) :
    (drainAndSpawn env w g func).liveOn g = 1 := by
  have hnil : w.live.filter (fun th => decide (th.gpioPin = g)) = [] := by
    rw [List.filter_eq_nil_iff]
    intro th hth
    simpa using hno th hth
  simp [drainAndSpawn, hc, World.liveOn, List.filter_cons, hnil]

theorem Inv_openValueAndSpawn (env : AttachEnv) (w : World) (g physPin func : Nat)
    (h : Inv w) (hg : g < 64) (hno : ∀ th ∈ w.live, th.gpioPin ≠ g) :
    Inv (finalWorld (openValueAndSpawn env w g physPin func)) := by
  have hset : Inv { w with sysFds := w.sysFds.set g env.valueFd
                           trace := w.trace ++ [.openRdwr (valuePath g) env.valueFd] } :=
    h.mono rfl (by simp) (List.Sublist.refl _)
  unfold openValueAndSpawn
  split
  · split
    · exact Inv_exit1 (Inv_emit hset _)
    · exact Inv_drainAndSpawn env _ g func hset hg hno
  · exact Inv_drainAndSpawn env w g func h hg hno

theorem Inv_attachInterrupt (c : Consts) (v : Variant) (env : AttachEnv) (w : World)
    (physPin func mode : Nat) (h : Inv w) :
    Inv (finalWorld (attachInterrupt c v env w physPin func mode)) := by
  unfold attachInterrupt
  by_cases hvalid : resolve v physPin = 255
  · simp only [if_pos hvalid]
    exact Inv_emit h _
  · have hlt : resolve v physPin < 64 := by
      have := resolve_lt_of_ne v physPin hvalid
      omega
    obtain ⟨hi, hno⟩ := Inv_prepareThreadSlot env.fresh w (resolve v physPin) h
    simp only [if_neg hvalid]
    split
    · exact Inv_exit1 (Inv_emit hi _)
    · split
      · exact Inv_exit1 (Inv_emit (Inv_emit hi _) _)
      · split
        · exact Inv_exit1 (Inv_emit (Inv_emit (Inv_emit hi _) _) _)
        · split
          · exact Inv_emit (Inv_emit (Inv_emit hi _) _) _
          · exact Inv_openValueAndSpawn env _ _ physPin func
              (Inv_emit (Inv_emit (Inv_emit hi _) _) _) hlt hno

theorem releaseThreadSlot_of_none (w : World) (g : Nat)
    (h : w.threadIds.getD g none = none) : releaseThreadSlot w g = w := by
  unfold releaseThreadSlot
  rw [h]

theorem closeValueFd_of_closed (w : World) (g : Nat)
    (h : w.sysFds.getD g (-1) = -1) : closeValueFd w g = w := by
  unfold closeValueFd
  simp only [ne_eq, h, not_true_eq_false, if_false]

theorem releaseThreadSlot_spec (w : World) (g : Nat) :
    (releaseThreadSlot w g).threadIds.getD g none = none ∧
    (∀ i, i ≠ g → (releaseThreadSlot w g).threadIds.getD i none = w.threadIds.getD i none) ∧
    (releaseThreadSlot w g).sysFds = w.sysFds := by
  unfold releaseThreadSlot
  cases hq : w.threadIds.getD g none with
  | none => exact ⟨hq, fun _ _ => rfl, rfl⟩
  | some t =>
    refine ⟨getD_set_default _ _ _, fun i hi => getD_set_ne _ _ _ _ _ (Ne.symm hi), rfl⟩

theorem closeValueFd_spec (w : World) (g : Nat) :
    (closeValueFd w g).sysFds.getD g (-1) = -1 ∧
    (∀ i, i ≠ g → (closeValueFd w g).sysFds.getD i (-1) = w.sysFds.getD i (-1)) ∧
    (closeValueFd w g).threadIds = w.threadIds ∧ (closeValueFd w g).live = w.live := by
  unfold closeValueFd
  by_cases hq : w.sysFds.getD g (-1) = -1
  · rw [if_neg (not_not.mpr hq)]
    exact ⟨hq, fun _ _ => rfl, rfl, rfl⟩
  · rw [if_pos hq]
    exact ⟨getD_set_default _ _ _, fun i hi => getD_set_ne _ _ _ _ _ (Ne.symm hi), rfl, rfl⟩

theorem Inv_releaseThreadSlot (w : World) (g : Nat) (h : Inv w) :
    Inv (releaseThreadSlot w g) := by
  obtain ⟨h1, h2, h3, h4⟩ := h
  unfold releaseThreadSlot
  cases hq : w.threadIds.getD g none with
  | none => exact ⟨h1, h2, h3, h4⟩
  | some t =>
    refine ⟨by simpa [World.cancel] using h1, h2, ?_, h4.sublist (List.filter_sublist _)⟩
    intro th hth
    have hth' : th ∈ w.live ∧ th.tid ≠ t := by
      simpa [World.cancel, List.mem_filter] using hth
    have hne : th.gpioPin ≠ g := by
      intro heq
      have := (h3 th hth'.1).2
      rw [heq, hq] at this
      exact hth'.2 (Option.some.inj this).symm
    refine ⟨(h3 th hth'.1).1, ?_⟩
    show (w.threadIds.set g none).getD th.gpioPin none = some th.tid
    rw [getD_set_ne _ _ _ _ _ (Ne.symm hne)]
    exact (h3 th hth'.1).2

theorem Inv_closeValueFd (w : World) (g : Nat) (h : Inv w) : Inv (closeValueFd w g) := by
  unfold closeValueFd
  split
  · exact h.mono rfl (by simp) (List.Sublist.refl _)
  · exact h

theorem Inv_detachInterrupt (v : Variant) (unexportOk : Bool) (w : World) (physPin : Nat)
    (h : Inv w) : Inv (finalWorld (detachInterrupt v unexportOk w physPin)) := by
  unfold detachInterrupt
  have hi := Inv_closeValueFd _ (resolve v physPin)
    (Inv_releaseThreadSlot w (resolve v physPin) h)
  simp only
  split
  · exact Inv_emit h _
  · split
    · exact Inv_exit1 (Inv_emit hi _)
    · exact Inv_emit hi _

theorem Inv_step (c : Consts) (v : Variant) (w : World) (call : Call) (h : Inv w) :
    Inv (finalWorld (step c v w call)) := by
  cases call with
  | attach env physPin func mode => exact Inv_attachInterrupt c v env w physPin func mode h
  | detach unexportOk physPin => exact Inv_detachInterrupt v unexportOk w physPin h

theorem Inv_run (c : Consts) (v : Variant) (calls : List Call) :
    ∀ w, Inv w → Inv (finalWorld (run c v w calls)) := by
  induction calls with
  | nil => intro w h; exact h
  | cons call rest ih =>
    intro w h
    have hs := Inv_step c v w call h
    unfold run
    cases hq : step c v w call with
    | ok w' =>
      rw [hq] at hs
      exact ih w' hs
    | error w' =>
      rw [hq] at hs
      exact hs

theorem liveOn_le_one (w : World) (h : Inv w) (g : Nat) : w.liveOn g ≤ 1 := by
  obtain ⟨-, -, -, h4⟩ := h
  unfold World.liveOn
  generalize w.live = l at h4
  induction l with
  | nil => simp
  | cons a l ih =>
    rw [List.pairwise_cons] at h4
    by_cases ha : a.gpioPin = g
    · have hnil : l.filter (fun th => decide (th.gpioPin = g)) = [] := by
        rw [List.filter_eq_nil_iff]
        intro th hth
        have := h4.1 th hth
        simpa using fun hh : th.gpioPin = g => this (ha.trans hh.symm)
      simp [List.filter_cons, ha, hnil]
    · simpa [List.filter_cons, ha] using ih h4.2

theorem slotEvents_of_some (w : World) (g t : Nat) (h : w.threadIds.getD g none = some t) :
    slotEvents w g = [.pthread_cancel t, .delay 1] := by
  unfold slotEvents
  rw [h]

theorem openValueAndSpawn_liveOn (env : AttachEnv) (w : World) (g physPin func : Nat)
    (hval : w.sysFds.getD g (-1) ≠ -1 ∨ 0 ≤ env.valueFd) (hc : env.createOk = true)
    (hno : ∀ th ∈ w.live, th.gpioPin ≠ g) :
    (finalWorld (openValueAndSpawn env w g physPin func)).liveOn g = 1 := by
  unfold openValueAndSpawn
  split
  · next hfd =>
    have hv : ¬ env.valueFd < 0 := by
      rcases hval with h | h
      · exact absurd hfd h
      · omega
    rw [if_neg hv]
    exact liveOn_drainAndSpawn env _ g func hc hno
  · exact liveOn_drainAndSpawn env w g func hc hno

theorem detachInterrupt_ok (v : Variant) (w : World) (physPin : Nat)
    (hvalid : resolve v physPin ≠ 255) :
    detachInterrupt v true w physPin =
      .ok ((closeValueFd (releaseThreadSlot w (resolve v physPin)) (resolve v physPin)).emit
        [.fopen unexportPath true, .fprintf unexportPath (toString (resolve v physPin)),
         .fclose unexportPath]) := by
  simp only [detachInterrupt, if_neg hvalid]
  rfl

/-! ## detachInterrupt twice -/

/-- C5: for a valid physical pin with resolved line `g` and any registry state, when the
unexport file opens, `detachInterrupt` returns, and a second `detachInterrupt` on the same
pin returns too; after the first call `threadIds[g]` is `NULL` and `sysFds[g]` is `-1` while
every other slot is as before; the second call leaves `threadIds`, `sysFds` and the running
threads as the first left them, and makes only the three calls that write `g` to the
unexport file: no `pthread_cancel` and no `close`. -/
theorem detachInterrupt_twice (v : Variant) (w : World) (physPin g : Nat)
    (hg : g = resolve v physPin) (hvalid : g ≠ 255) :
    ∃ w1 w2, detachInterrupt v true w physPin = .ok w1 ∧
      detachInterrupt v true w1 physPin = .ok w2 ∧
      w1.threadIds.getD g none = none ∧ w1.sysFds.getD g (-1) = -1 ∧
      (∀ i, i ≠ g → w1.threadIds.getD i none = w.threadIds.getD i none ∧
        w1.sysFds.getD i (-1) = w.sysFds.getD i (-1)) ∧
      w2.threadIds = w1.threadIds ∧ w2.sysFds = w1.sysFds ∧ w2.live = w1.live ∧
      w2.trace = w1.trace ++
        [.fopen "/sys/class/gpio/unexport" true,
         .fprintf "/sys/class/gpio/unexport" (toString g),
         .fclose "/sys/class/gpio/unexport"] := by
  subst hg
  obtain ⟨r1, r2, r3⟩ := releaseThreadSlot_spec w (resolve v physPin)
  obtain ⟨c1, c2, c3, -⟩ :=
    closeValueFd_spec (releaseThreadSlot w (resolve v physPin)) (resolve v physPin)
  have ht : ((closeValueFd (releaseThreadSlot w (resolve v physPin)) (resolve v physPin)).emit
      [.fopen unexportPath true, .fprintf unexportPath (toString (resolve v physPin)),
       .fclose unexportPath]).threadIds.getD (resolve v physPin) none = none := by
    rw [World.emit_threadIds, c3]
    exact r1
  have hs : ((closeValueFd (releaseThreadSlot w (resolve v physPin)) (resolve v physPin)).emit
      [.fopen unexportPath true, .fprintf unexportPath (toString (resolve v physPin)),
       .fclose unexportPath]).sysFds.getD (resolve v physPin) (-1) = -1 := by
    rw [World.emit_sysFds]
    exact c1
  refine ⟨_, _, detachInterrupt_ok v w physPin hvalid, detachInterrupt_ok v _ physPin hvalid,
    ht, hs, ?_, ?_, ?_, ?_, ?_⟩
  · intro i hi
    refine ⟨?_, ?_⟩
    · rw [World.emit_threadIds, c3]
      exact r2 i hi
    · rw [World.emit_sysFds, c2 i hi, r3]
  · rw [releaseThreadSlot_of_none _ _ ht, closeValueFd_of_closed _ _ hs]
    rfl
  · rw [releaseThreadSlot_of_none _ _ ht, closeValueFd_of_closed _ _ hs]
    rfl
  · rw [releaseThreadSlot_of_none _ _ ht, closeValueFd_of_closed _ _ hs]
    rfl
  · rw [releaseThreadSlot_of_none _ _ ht, closeValueFd_of_closed _ _ hs]
    rfl

theorem detachInterrupt_twice_witness :
    ∃ w1 w2,
      detachInterrupt .bplus true
        (finalWorld (attachInterrupt sampleConsts .bplus okEnv World.init 11 0 3)) 11 = .ok w1 ∧
      detachInterrupt .bplus true w1 11 = .ok w2 ∧
      w1.threadIds.getD 17 none = none ∧ w1.sysFds.getD 17 (-1) = -1 ∧
      (∀ i, i ≠ 17 →
        w1.threadIds.getD i none =
          (finalWorld (attachInterrupt sampleConsts .bplus okEnv World.init 11 0 3)).threadIds.getD
            i none ∧
        w1.sysFds.getD i (-1) =
          (finalWorld (attachInterrupt sampleConsts .bplus okEnv World.init 11 0 3)).sysFds.getD
            i (-1)) ∧
      w2.threadIds = w1.threadIds ∧ w2.sysFds = w1.sysFds ∧ w2.live = w1.live ∧
      w2.trace = w1.trace ++
        [.fopen "/sys/class/gpio/unexport" true,
         .fprintf "/sys/class/gpio/unexport" (toString 17),
         .fclose "/sys/class/gpio/unexport"] :=
  detachInterrupt_twice .bplus
    (finalWorld (attachInterrupt sampleConsts .bplus okEnv World.init 11 0 3)) 11 17
    (by decide) (by decide)

/-! ## One watcher per line -/

/-- C8: after any sequence of `attachInterrupt` / `detachInterrupt` calls from the initial
registry, with `pthread_cancel` ending the cancelled thread, every line has at most one
running watcher; and in such a state, an `attachInterrupt` on a line that has a running
watcher, with a supported mode, every file opening and `pthread_create` succeeding, returns
after calling `pthread_cancel` on that watcher first and `pthread_create` last, and leaves
exactly one running watcher on the line. -/
theorem one_watcher_per_line (c : Consts) (v : Variant) (calls : List Call) :
    (∀ g, (finalWorld (run c v World.init calls)).liveOn g ≤ 1) ∧
    (∀ (env : AttachEnv) (physPin func mode : Nat) (th : Thread),
      th ∈ (finalWorld (run c v World.init calls)).live →
      th.gpioPin = resolve v physPin →
      edgeText c mode ≠ none →
      env.exportOk = true → env.directionOk = true → env.edgeOk = true →
      ((finalWorld (run c v World.init calls)).sysFds.getD (resolve v physPin) (-1) ≠ -1 ∨
        0 ≤ env.valueFd) →
      env.createOk = true →
      ∃ w' mid,
        attachInterrupt c v env (finalWorld (run c v World.init calls)) physPin func mode =
          .ok w' ∧
        w'.trace = (finalWorld (run c v World.init calls)).trace ++
          [.pthread_cancel th.tid, .delay 1] ++ mid ++
          [.pthread_create (some (finalWorld (run c v World.init calls)).nextTid)
            (resolve v physPin) func] ∧
        w'.liveOn (resolve v physPin) = 1) := by
  have hinv := Inv_run c v calls World.init Inv_init
  generalize finalWorld (run c v World.init calls) = w at hinv
  refine ⟨fun g => liveOn_le_one w hinv g, ?_⟩
  intro env physPin func mode th hth hline hmode hexp hdir hedge hval hc
  have hbound := (hinv.2.2.1 th hth).1
  have hrec := (hinv.2.2.1 th hth).2
  rw [hline] at hbound hrec
  have hvalid : resolve v physPin ≠ 255 := by omega
  obtain ⟨text, htext⟩ := Option.ne_none_iff_exists'.mp hmode
  have key := attachInterrupt_configured c v env w physPin func mode text hvalid hexp hdir
    hedge htext
  obtain ⟨-, hno⟩ := Inv_prepareThreadSlot env.fresh w (resolve v physPin) hinv
  have hval' : (((((prepareThreadSlot env.fresh w (resolve v physPin)).emit
      [.fopen exportPath true, .fprintf exportPath (toString (resolve v physPin) ++ "\n"),
       .fclose exportPath, .delay 1]).emit
      [.fopen (directionPath (resolve v physPin)) true,
       .fprintf (directionPath (resolve v physPin)) "in\n",
       .fclose (directionPath (resolve v physPin))]).emit
      [.fopen (edgePath (resolve v physPin)) true,
       .fprintf (edgePath (resolve v physPin)) text,
       .fclose (edgePath (resolve v physPin))]).sysFds.getD
      (resolve v physPin) (-1) ≠ -1 ∨ 0 ≤ env.valueFd) := by
    simpa [prepareThreadSlot_sysFds] using hval
  obtain ⟨w', mid, hok, htr, -⟩ :=
    openValueAndSpawn_ok env _ (resolve v physPin) physPin func hval'
  have hlive := openValueAndSpawn_liveOn env _ (resolve v physPin) physPin func hval' hc hno
  rw [hok] at hlive
  refine ⟨w',
    [.fopen exportPath true, .fprintf exportPath (toString (resolve v physPin) ++ "\n"),
     .fclose exportPath, .delay 1,
     .fopen (directionPath (resolve v physPin)) true,
     .fprintf (directionPath (resolve v physPin)) "in\n",
     .fclose (directionPath (resolve v physPin)),
     .fopen (edgePath (resolve v physPin)) true,
     .fprintf (edgePath (resolve v physPin)) text,
     .fclose (edgePath (resolve v physPin))] ++ mid, key.trans hok, ?_, hlive⟩
  rw [htr]
  simp only [World.emit_trace, World.emit_nextTid, prepareThreadSlot_trace,
    prepareThreadSlot_nextTid, slotEvents_of_some w _ _ hrec, hc, if_true,
    List.append_assoc, List.cons_append, List.nil_append]

theorem one_watcher_per_line_witness :
    (∀ g, (finalWorld (run sampleConsts .other World.init [.attach okEnv 11 0 3])).liveOn g ≤ 1) ∧
    ∃ w' mid,
      attachInterrupt sampleConsts .other okEnv
        (finalWorld (run sampleConsts .other World.init [.attach okEnv 11 0 3])) 11 1 2 =
          .ok w' ∧
      w'.trace = (finalWorld (run sampleConsts .other World.init [.attach okEnv 11 0 3])).trace ++
        [.pthread_cancel 0, .delay 1] ++ mid ++
        [.pthread_create
          (some (finalWorld (run sampleConsts .other World.init [.attach okEnv 11 0 3])).nextTid)
          (resolve .other 11) 1] ∧
      w'.liveOn (resolve .other 11) = 1 :=
  ⟨(one_watcher_per_line sampleConsts .other [.attach okEnv 11 0 3]).1,
   (one_watcher_per_line sampleConsts .other [.attach okEnv 11 0 3]).2 okEnv 11 1 2
     { tid := 0, gpioPin := 17, func := 0 } (by decide) (by decide) (by decide) rfl rfl rfl
     (Or.inr (by decide)) rfl⟩

/-! ## Registry indices -/

/-- C9: on both variants every physical pin resolves to 255 or to a line below 64; and
after any sequence of `attachInterrupt` / `detachInterrupt` calls from the initial registry,
`threadIds` and `sysFds` still have 64 slots, so the resolved line these functions index
them with is in bounds, and so is the `gpioPin` that every running `interruptHandler`
thread was given to index `sysFds`. -/
theorem registry_indices_in_bounds (c : Consts) (v : Variant) (calls : List Call)
    (physPin : Nat) :
    (resolve v physPin = 255 ∨ resolve v physPin < 64) ∧
    World.init.threadIds.length = 64 ∧ World.init.sysFds.length = 64 ∧
    (finalWorld (run c v World.init calls)).threadIds.length = 64 ∧
    (finalWorld (run c v World.init calls)).sysFds.length = 64 ∧
    (resolve v physPin = 255 ∨
      (resolve v physPin < (finalWorld (run c v World.init calls)).threadIds.length ∧
       resolve v physPin < (finalWorld (run c v World.init calls)).sysFds.length)) ∧
    (List.all (finalWorld (run c v World.init calls)).live
      (fun th => decide (th.gpioPin < (finalWorld (run c v World.init calls)).sysFds.length))) =
      true := by
  have hinv := Inv_run c v calls World.init Inv_init
  obtain ⟨i1, i2, -, -⟩ := Inv_init
  generalize finalWorld (run c v World.init calls) = w at hinv
  obtain ⟨h1, h2, h3, -⟩ := hinv
  have hr : resolve v physPin = 255 ∨ resolve v physPin < 64 := by
    rcases resolve_range v physPin with h | h
    · exact Or.inl h
    · exact Or.inr (by omega)
  refine ⟨hr, i1, i2, h1, h2, ?_, ?_⟩
  · rcases hr with h | h
    · exact Or.inl h
    · exact Or.inr ⟨by omega, by omega⟩
  · rw [List.all_eq_true]
    intro th hth
    have := (h3 th hth).1
    simp only [decide_eq_true_eq]
    omega

end RpiUtil
